import Mathlib

set_option autoImplicit false

/-!
Verification of the SANDRO client-side security core against its
natural-language specification.  The definitions below are shallow
embeddings of the TypeScript sources:

* `Sandro.Asset`     — `AssetProtectionService` (signed asset URLs)
* `Sandro.Logger`    — `SecurityEventLogger` (event pipeline, retry, fallback)
* `Sandro.RateLimit` — `APIObfuscator.checkRateLimit`
* `Sandro.DevTools`  — `DevToolsDetector.runDetection` fusion
* `Sandro.Integrity` — `IntegrityVerifier.performIntegrityCheck`
* `Sandro.Monitor`   — `SecurityMonitor.updateMetrics` threat level

Machine time (`Date.now()`) is an explicit `Nat` parameter; external
library calls (crypto-js HMAC / hashes, the network) are abstract
function parameters; JavaScript `Map`s are association lists with
insert-or-replace semantics.
-/

namespace Sandro

/-- Lookup in an association list, mirroring `Map.get` (first matching key). -/
def mapFind {β : Type} (m : List (String × β)) (k : String) : Option β :=
  match m with
  | [] => none
  | (k₀, v₀) :: rest => if k₀ = k then some v₀ else mapFind rest k

/-- `Map.set`: replace the value at an existing key, else append the new entry. -/
def mapSet {β : Type} (m : List (String × β)) (k : String) (v : β) : List (String × β) :=
  match m with
  | [] => [(k, v)]
  | (k₀, v₀) :: rest => if k₀ = k then (k₀, v) :: rest else (k₀, v₀) :: mapSet rest k v

/-- `Map.delete`: remove the entry with the given key (if any). -/
def mapErase {β : Type} (m : List (String × β)) (k : String) : List (String × β) :=
  match m with
  | [] => []
  | (k₀, v₀) :: rest => if k₀ = k then rest else (k₀, v₀) :: mapErase rest k

/-- Replace the character at position `i` of a string (the claim's
"mutating one character of the signature"). -/
def mutateString (s : String) (i : Nat) (c : Char) : String :=
  String.mk (s.toList.set i c)

namespace Asset

/-- `AssetProtectionConfig` from `AssetProtectionService`. -/
structure AssetProtectionConfig where
  enabled : Bool
  urlExpiration : Nat
  maxFileSize : Nat
  allowedExtensions : List String
  signatureKey : String
  proxyEndpoint : String
  deriving DecidableEq, Repr

/-- `SignedAssetUrl` return record of `generateSignedUrl`. -/
structure SignedAssetUrl where
  url : String
  token : String
  expires : Nat
  signature : String
  deriving DecidableEq, Repr

/-- One entry of the `tokenCache` map: `{ originalPath, expires }`. -/
structure TokenData where
  originalPath : String
  expires : Nat
  deriving DecidableEq, Repr

/-- One entry of `accessLogs` (the `ip`/`userAgent` fields carry no logic). -/
structure AssetAccessLog where
  token : String
  timestamp : Nat
  success : Bool
  reason : Option String
  deriving DecidableEq, Repr

/-- Mutable state of an `AssetProtectionService` instance. -/
structure Service where
  config : AssetProtectionConfig
  accessLogs : List AssetAccessLog
  tokenCache : List (String × TokenData)
  deriving DecidableEq, Repr

/-- `getFileExtension`: `filePath.substring(filePath.lastIndexOf('.'))`.
When no dot occurs, JS `lastIndexOf` gives `-1` and `substring` clamps to
the whole string. -/
def getFileExtension (filePath : String) : String :=
  match (filePath.toList.reverse.findIdx? (fun c => c = '.')) with
  | none => filePath
  | some i => String.mk (filePath.toList.drop (filePath.toList.length - 1 - i))

/-- `generateSignature`: HMAC-SHA256 over `token:expires:assetPath` with the
configured key.  `hmac data key` abstracts `crypto.HmacSHA256(data, key).toString()`. -/
def generateSignature (hmac : String → String → String) (cfg : AssetProtectionConfig)
    (token : String) (expires : Nat) (assetPath : String) : String :=
  hmac (token ++ ":" ++ toString expires ++ ":" ++ assetPath) cfg.signatureKey

/-- `logAccess`: push a truncated-token entry, dropping the oldest past 1000. -/
def logAccess (svc : Service) (token : String) (success : Bool) (reason : Option String)
    (now : Nat) : Service :=
  let log : AssetAccessLog :=
    { token := String.mk (token.toList.take 8) ++ "..."
      timestamp := now
      success := success
      reason := reason }
  let logs := svc.accessLogs ++ [log]
  { svc with accessLogs := if logs.length > 1000 then logs.tail else logs }

/-- `generateSignedUrl`.  `now` is `Date.now()`, `token` the value produced by
`generateSecureToken` (random, supplied by the environment).  `Except` models
the `throw new Error(...)` on a disallowed extension. -/
def generateSignedUrl (hmac : String → String → String) (svc : Service)
    (assetPath : String) (now : Nat) (token : String) :
    Except String (SignedAssetUrl × Service) :=
  if !svc.config.enabled then
    .ok ({ url := assetPath, token := "", expires := 0, signature := "" }, svc)
  else
    let extension := getFileExtension assetPath
    if extension ∉ svc.config.allowedExtensions then
      .error ("Asset type not allowed: " ++ extension)
    else
      let expires := now + svc.config.urlExpiration * 60 * 1000
      let signature := generateSignature hmac svc.config token expires assetPath
      let svc' := { svc with
        tokenCache := mapSet svc.tokenCache token { originalPath := assetPath, expires := expires } }
      let url := svc.config.proxyEndpoint ++ "/" ++ token ++ "?exp=" ++ toString expires
        ++ "&sig=" ++ signature
      .ok ({ url := url, token := token, expires := expires, signature := signature }, svc')

/-- `validateSignedUrl`: returns the original asset path on success, `none`
(JS `null`) on any failure, together with the updated service state. -/
def validateSignedUrl (hmac : String → String → String) (svc : Service)
    (token : String) (providedSignature : String) (expires : Nat) (now : Nat) :
    Option String × Service :=
  if !svc.config.enabled then
    (none, svc)
  else
    match mapFind svc.tokenCache token with
    | none => (none, logAccess svc token false (some "Token not found") now)
    | some tokenData =>
      if now > expires || now > tokenData.expires then
        let svc' := { svc with tokenCache := mapErase svc.tokenCache token }
        (none, logAccess svc' token false (some "Token expired") now)
      else
        let expectedSignature :=
          generateSignature hmac svc.config token expires tokenData.originalPath
        if providedSignature ≠ expectedSignature then
          (none, logAccess svc token false (some "Invalid signature") now)
        else
          (some tokenData.originalPath, logAccess svc token true none now)

end Asset

namespace Logger

/-- Event severity levels of `SecurityEvent`. -/
inductive Severity
  | low
  | medium
  | high
  | critical
  deriving DecidableEq, Repr

/-- `SecurityEvent` record.  `details` is the open key-value map
`Record<string, any>`; only string values occur in the logic we model
(the retry path reads and writes `details.retryCount`). -/
structure SecurityEvent where
  id : String
  type : String
  severity : Severity
  timestamp : Nat
  source : String
  details : List (String × String)
  userAgent : String
  sessionId : String
  fingerprint : String
  deriving DecidableEq, Repr

/-- `SecurityEventLoggerConfig`. -/
structure LoggerConfig where
  enabled : Bool
  endpoint : Option String
  apiKey : Option String
  batchSize : Nat
  flushInterval : Nat
  maxRetries : Nat
  retryDelay : Nat
  localStorageKey : String
  fingerprintingEnabled : Bool
  encryptionEnabled : Bool
  deriving DecidableEq, Repr

/-- `EventBatch`. -/
structure EventBatch where
  events : List SecurityEvent
  batchId : String
  timestamp : Nat
  sessionId : String
  deriving DecidableEq, Repr

/-- Mutable state of a `SecurityEventLogger` plus its observable environment:
`storage` is the `localStorage` slot under `config.localStorageKey`,
`sentBatches` the batches the network accepted, `flushedBatches` a history
of every batch `flush` created (observation only, never read back), and
`attempts` counts network transmission attempts to drive the outcome
oracle. -/
structure LoggerState where
  config : LoggerConfig
  eventQueue : List SecurityEvent
  retryQueue : List EventBatch
  isOnline : Bool
  sessionId : String
  fingerprint : String
  userAgent : String
  storage : List EventBatch
  sentBatches : List EventBatch
  flushedBatches : List EventBatch
  attempts : Nat
  deriving DecidableEq, Repr

/-- `storeLocally`: append the batch under the local-storage key, keeping
only the last 100 batches. -/
def storeLocally (st : LoggerState) (batch : EventBatch) : LoggerState :=
  let existingBatches := st.storage ++ [batch]
  let existingBatches :=
    if existingBatches.length > 100
    then existingBatches.drop (existingBatches.length - 100)
    else existingBatches
  { st with storage := existingBatches }

/-- `sendBatch`: with no endpoint configured, store locally (success);
otherwise POST the batch — `net n` tells whether the `n`-th network
attempt gets a 2xx response (a non-2xx or network error throws). -/
def sendBatch (net : Nat → Bool) (st : LoggerState) (batch : EventBatch) :
    Bool × LoggerState :=
  match st.config.endpoint with
  | none => (true, storeLocally st batch)
  | some _ =>
    let ok := net st.attempts
    (ok, { st with
      attempts := st.attempts + 1
      sentBatches := if ok then st.sentBatches ++ [batch] else st.sentBatches })

/-- `flush`: snapshot the queue into one batch, clear it, attempt
transmission; on failure push the batch onto the retry queue (the
`scheduleRetry` timer it also arms is modelled by the driver running
`scheduleRetryStep`). -/
def flush (net : Nat → Bool) (st : LoggerState) (batchId : String) (ts : Nat) :
    LoggerState :=
  if st.eventQueue.length = 0 || !st.isOnline then st
  else
    let batch : EventBatch :=
      { events := st.eventQueue, batchId := batchId, timestamp := ts, sessionId := st.sessionId }
    let st := { st with
      eventQueue := []
      flushedBatches := st.flushedBatches ++ [batch] }
    let r := sendBatch net st batch
    if r.1 then r.2
    else { r.2 with retryQueue := r.2.retryQueue ++ [batch] }

/-- The caller-supplied arguments of `logEvent` together with the values
the environment produces inside it (`generateEventId()`, `Date.now()`). -/
structure EventInput where
  type : String
  details : List (String × String)
  severity : Severity
  source : String
  id : String
  timestamp : Nat
  deriving DecidableEq, Repr

/-- The `SecurityEvent` record `logEvent` constructs. -/
def mkEvent (st : LoggerState) (e : EventInput) : SecurityEvent :=
  { id := e.id, type := e.type, severity := e.severity, timestamp := e.timestamp,
    source := e.source, details := e.details, userAgent := st.userAgent,
    sessionId := st.sessionId, fingerprint := st.fingerprint }

/-- `logEvent`: enqueue the event, flush immediately on a critical event,
and auto-flush when the queue has reached `batchSize`. -/
def logEvent (net : Nat → Bool) (st : LoggerState) (e : EventInput)
    (batchId : String) (ts : Nat) : LoggerState × String :=
  if !st.config.enabled then (st, "")
  else
    let event := mkEvent st e
    let st := { st with eventQueue := st.eventQueue ++ [event] }
    let st := if e.severity = Severity.critical then flush net st batchId ts else st
    let st := if st.eventQueue.length ≥ st.config.batchSize then flush net st batchId ts else st
    (st, event.id)

/-- Fold `logEvent` over a list of events (batch ids and timestamps are
taken from each event's env-supplied `id`/`timestamp`). -/
def logEvents (net : Nat → Bool) (st : LoggerState) (evs : List EventInput) : LoggerState :=
  evs.foldl (fun s e => (logEvent net s e e.id e.timestamp).1) st

/-- The in-place `event.details.retryCount = 1` tagging of a batch's events. -/
def markRetried (batch : EventBatch) : EventBatch :=
  { batch with
    events := batch.events.map
      (fun ev => { ev with details := mapSet ev.details "retryCount" "1" }) }

/-- One firing of the `scheduleRetry` timer: shift a batch off the retry
queue and retry its transmission; on failure, re-queue it once (tagging
its events with `retryCount`), otherwise drop it.  The source re-arms the
timer while the queue is nonempty; the driver models that by iterating
this step. -/
def scheduleRetryStep (net : Nat → Bool) (st : LoggerState) : LoggerState :=
  match st.retryQueue with
  | [] => st
  | batch :: rest =>
    let st := { st with retryQueue := rest }
    let r := sendBatch net st batch
    if r.1 then r.2
    else
      match batch.events with
      | [] => r.2
      | ev :: _ =>
        if (mapFind ev.details "retryCount").isNone then
          { r.2 with retryQueue := r.2.retryQueue ++ [markRetried batch] }
        else r.2

end Logger

namespace RateLimit

/-- One entry of `APIObfuscator.rateLimitStore`. -/
structure RateLimitEntry where
  count : Nat
  firstRequest : Nat
  lastRequest : Nat
  blocked : Bool
  deriving DecidableEq, Repr

/-- `const windowSize = 60000` (one-minute window). -/
def windowSize : Nat := 60000

/-- `const maxRequests = 100` (ceiling per window). -/
def maxRequests : Nat := 100

/-- `APIObfuscator.checkRateLimit` for the composite `clientId:url` key;
`true` means the call passes, `false` that
`throw new Error('Rate limit exceeded ...')` fires.  JS subtraction on a
clock that went backwards is negative and fails the `> windowSize` test
just as truncated `Nat` subtraction does. -/
def checkRateLimit (store : List (String × RateLimitEntry)) (key : String) (now : Nat) :
    Bool × List (String × RateLimitEntry) :=
  match mapFind store key with
  | none =>
    (true, mapSet store key
      { count := 1, firstRequest := now, lastRequest := now, blocked := false })
  | some entry =>
    if now - entry.firstRequest > windowSize then
      (true, mapSet store key
        { count := 1, firstRequest := now, lastRequest := now, blocked := false })
    else
      let entry := { entry with count := entry.count + 1, lastRequest := now }
      if entry.count > maxRequests then
        (false, mapSet store key { entry with blocked := true })
      else
        (true, mapSet store key entry)

/-- Run a sequence of `checkRateLimit` calls for one key, collecting each
call's pass/fail outcome. -/
def runCalls (store : List (String × RateLimitEntry)) (key : String) :
    List Nat → List Bool × List (String × RateLimitEntry)
  | [] => ([], store)
  | t :: ts =>
    let r := checkRateLimit store key t
    let rest := runCalls r.2 key ts
    (r.1 :: rest.1, rest.2)

end RateLimit

namespace DevTools

/-- `DetectionResult` of one probe.  `confidence` is a JS number in `[0,1]`;
only comparisons are performed on it, modelled over `ℚ`. -/
structure DetectionResult where
  detected : Bool
  method : String
  confidence : ℚ
  timestamp : Nat
  deriving DecidableEq, Repr

/-- The filter `r.detected && r.confidence >= confidenceThreshold`. -/
def qualifies (threshold : ℚ) (r : DetectionResult) : Bool :=
  r.detected && threshold ≤ r.confidence

/-- `Array.reduce` over a nonempty array: fold the tail starting from the
head, keeping the strictly-higher-confidence result. -/
def pickBest (best : DetectionResult) (rest : List DetectionResult) : DetectionResult :=
  rest.foldl (fun b cur => if cur.confidence > b.confidence then cur else b) best

/-- The result-processing step of `DevToolsDetector.runDetection`, given the
probe results of one tick: the filter for high-confidence detections, the
`reduce` selecting the best one, the single `handleDetection` →
`config.onDetection(method, confidence)` invocation, and the rolling
history capped at the last 10 results.  Returns the list of callback
invocations of this tick and the new history. -/
def runDetection (threshold : ℚ) (history : List DetectionResult)
    (results : List DetectionResult) : List (String × ℚ) × List DetectionResult :=
  let highConfidenceDetections := results.filter (qualifies threshold)
  let invocations :=
    match highConfidenceDetections with
    | [] => []
    | h :: t => [((pickBest h t).method, (pickBest h t).confidence)]
  let newHistory := history ++ results
  (invocations,
   if newHistory.length > 10 then newHistory.drop (newHistory.length - 10) else newHistory)

end DevTools

namespace Integrity

/-- One element returned by `getCodeElements`. -/
structure CodeElement where
  id : String
  content : String
  deriving DecidableEq, Repr

/-- `IntegrityCheck` record kept per element in `checks`. -/
structure IntegrityCheck where
  hash : String
  timestamp : Nat
  verified : Bool
  failureCount : Nat
  deriving DecidableEq, Repr

/-- `TamperEvent` handed to `config.onTamperDetected`. -/
structure TamperEvent where
  type : String
  timestamp : Nat
  expectedHash : String
  actualHash : String
  location : String
  severity : String
  deriving DecidableEq, Repr

/-- State of an `IntegrityVerifier`: the baseline map, the per-element
check records, the tamper events handed to the configured handler
(observation), and the no-overlap flag. -/
structure VerifierState where
  maxFailures : Nat
  buildTimeHashes : List (String × String)
  checks : List (String × IntegrityCheck)
  tamperEvents : List TamperEvent
  isVerifying : Bool
  deriving DecidableEq, Repr

/-- `handleIntegrityFailure`: read back the just-written check record
(`check?.failureCount || 1` — JS `0` is falsy), derive the severity from
`maxFailures`, and invoke the tamper handler. -/
def handleIntegrityFailure (st : VerifierState) (elementId expectedHash actualHash : String)
    (now : Nat) : VerifierState :=
  let failureCount :=
    match mapFind st.checks elementId with
    | some check => if check.failureCount = 0 then 1 else check.failureCount
    | none => 1
  let severity := if failureCount ≥ st.maxFailures then "critical" else "medium"
  { st with tamperEvents := st.tamperEvents ++
      [{ type := "integrity_failure", timestamp := now, expectedHash := expectedHash,
         actualHash := actualHash, location := elementId, severity := severity }] }

/-- `verifyElement`.  `hashFn content id` abstracts
`generateHash(content, id)` (a crypto-js call over the salted content);
`none` models the library call throwing, which propagates to the caller
(`Except.error` carries the state at the exception). -/
def verifyElement (hashFn : String → String → Option String) (st : VerifierState)
    (element : CodeElement) (now : Nat) : Except VerifierState (Bool × VerifierState) :=
  match hashFn element.content element.id with
  | none => .error st
  | some currentHash =>
    match mapFind st.buildTimeHashes element.id with
    | none =>
      .ok (true, { st with buildTimeHashes := mapSet st.buildTimeHashes element.id currentHash })
    | some expectedHash =>
      let isValid := currentHash = expectedHash
      let existingCheck := mapFind st.checks element.id
      let check : IntegrityCheck :=
        { hash := currentHash, timestamp := now, verified := isValid,
          failureCount :=
            if isValid then 0
            else (match existingCheck with | some c => c.failureCount | none => 0) + 1 }
      let st := { st with checks := mapSet st.checks element.id check }
      if isValid then .ok (true, st)
      else .ok (false, handleIntegrityFailure st element.id expectedHash currentHash now)

/-- The `for` loop of `performIntegrityCheck`, accumulating `allValid`;
an exception from `verifyElement` aborts the remaining iterations. -/
def checkLoop (hashFn : String → String → Option String) (elements : List CodeElement)
    (st : VerifierState) (allValid : Bool) (now : Nat) :
    Except VerifierState (Bool × VerifierState) :=
  match elements with
  | [] => .ok (allValid, st)
  | e :: rest =>
    match verifyElement hashFn st e now with
    | .error stE => .error stE
    | .ok r => checkLoop hashFn rest r.2 (allValid && r.1) now

/-- `performIntegrityCheck`: the re-entrancy guard, the loop inside
`try`, the `catch` returning `false`, and the `finally` clearing
`isVerifying`. -/
def performIntegrityCheck (hashFn : String → String → Option String) (st : VerifierState)
    (elements : List CodeElement) (now : Nat) : Bool × VerifierState :=
  if st.isVerifying then (true, st)
  else
    let st := { st with isVerifying := true }
    match checkLoop hashFn elements st true now with
    | .ok r => (r.1, { r.2 with isVerifying := false })
    | .error stE => (false, { stE with isVerifying := false })

end Integrity

namespace Monitor

/-- `SecurityAlert` (the fields the threat-level computation reads). -/
structure SecurityAlert where
  id : String
  type : String
  severity : Logger.Severity
  timestamp : Nat
  acknowledged : Bool
  deriving DecidableEq, Repr

/-- The four threat levels of `SecurityMetrics.threatLevel`. -/
inductive ThreatLevel
  | low
  | medium
  | high
  | critical
  deriving DecidableEq, Repr

/-- The threat-level derivation inside `SecurityMonitor.updateMetrics`. -/
def computeThreatLevel (alerts : List SecurityAlert) : ThreatLevel :=
  let criticalAlerts := (alerts.filter (fun a => a.severity = Logger.Severity.critical)).length
  let highAlerts := (alerts.filter (fun a => a.severity = Logger.Severity.high)).length
  if criticalAlerts > 0 then ThreatLevel.critical
  else if highAlerts > 2 then ThreatLevel.high
  else if alerts.length > 10 then ThreatLevel.medium
  else ThreatLevel.low

/-- The threat level exactly as claim C8 words it, for comparison with the
source-derived `computeThreatLevel`. -/
def claimThreatLevel (alerts : List SecurityAlert) : ThreatLevel :=
  if ∃ a ∈ alerts, a.severity = Logger.Severity.critical then ThreatLevel.critical
  else if 2 < (alerts.filter (fun a => a.severity = Logger.Severity.high)).length then ThreatLevel.high
  else if 10 < alerts.length then ThreatLevel.medium
  else ThreatLevel.low

end Monitor

/-! ### Concrete fixtures

Closed instances used to evaluate the embedding at specific inputs.
`hmacC` and `hashC` instantiate the abstract crypto-js calls with simple
injective stand-ins; the theorems themselves quantify over the abstract
function wherever the property does not depend on it. -/

/-- Concrete stand-in for `crypto.HmacSHA256(data, key).toString()`. -/
def hmacC : String → String → String := fun data key => data ++ "#" ++ key

/-- A concrete enabled `AssetProtectionService` configuration. -/
def assetConfigC : Asset.AssetProtectionConfig :=
  { enabled := true, urlExpiration := 15, maxFileSize := 52428800,
    allowedExtensions := [".jpg", ".jpeg", ".png", ".webp", ".avif", ".glb", ".gltf", ".json", ".bin"],
    signatureKey := "K", proxyEndpoint := "/secure-assets" }

/-- A fresh service instance with that configuration. -/
def assetSvcC : Asset.Service :=
  { config := assetConfigC, accessLogs := [], tokenCache := [] }

/-- The same service with `enabled := false` (claim C10's configuration). -/
def assetSvcDisabledC : Asset.Service :=
  { assetSvcC with config := { assetConfigC with enabled := false } }

/-- The grant `generateSignedUrl hmacC assetSvcC "/img/a.png" 0 "tok"` issues:
signed URL record and post-issuance service state. -/
def assetGrantC : Asset.SignedAssetUrl × Asset.Service :=
  ({ url := "/secure-assets/tok?exp=900000&sig=tok:900000:/img/a.png#K",
     token := "tok", expires := 900000, signature := "tok:900000:/img/a.png#K" },
   { config := assetConfigC, accessLogs := [],
     tokenCache := [("tok", { originalPath := "/img/a.png", expires := 900000 })] })

/-- A concrete logger configuration with a transmission endpoint. -/
def loggerConfigC : Logger.LoggerConfig :=
  { enabled := true, endpoint := some "https://telemetry.example/events", apiKey := none,
    batchSize := 10, flushInterval := 30000, maxRetries := 3, retryDelay := 5000,
    localStorageKey := "sandro_security_events", fingerprintingEnabled := true,
    encryptionEnabled := false }

/-- A queued security event. -/
def eventC : Logger.SecurityEvent :=
  { id := "event_1", type := "devtools_detected", severity := Logger.Severity.high,
    timestamp := 1000, source := "DevToolsDetector", details := [], userAgent := "ua",
    sessionId := "session_1", fingerprint := "fp" }

/-- A logger whose queue holds `eventC`, about to flush. -/
def loggerStateC : Logger.LoggerState :=
  { config := loggerConfigC, eventQueue := [eventC], retryQueue := [], isOnline := true,
    sessionId := "session_1", fingerprint := "fp", userAgent := "ua",
    storage := [], sentBatches := [], flushedBatches := [], attempts := 0 }

/-- A network on which every transmission attempt fails. -/
def netFail : Nat → Bool := fun _ => false

/-- Claim C3's failing run: the flush's transmission fails, and so does
every scheduled retry; after two firings of the retry timer the retry
queue is empty again (quiescence). -/
def c3Run : Logger.LoggerState :=
  Logger.scheduleRetryStep netFail
    (Logger.scheduleRetryStep netFail (Logger.flush netFail loggerStateC "batch_1" 1000))

/-- A hash oracle whose computation throws for element `elem1` and
succeeds (injectively) everywhere else. -/
def hashFailC : String → String → Option String :=
  fun content id => if id = "elem1" then none else some ("H:" ++ content ++ ":" ++ id)

/-- Element whose hash computation fails. -/
def elem1C : Integrity.CodeElement := { id := "elem1", content := "alpha" }

/-- Element whose current hash mismatches its pre-seeded baseline. -/
def elem2C : Integrity.CodeElement := { id := "elem2", content := "beta" }

/-- Element absent from the baseline (trust-on-first-use candidate). -/
def elem3C : Integrity.CodeElement := { id := "elem3", content := "gamma" }

/-- Verifier with pre-seeded baselines for `elem1` and `elem2`, both of
which differ from the freshly computed content hashes. -/
def verifierStateC : Integrity.VerifierState :=
  { maxFailures := 3, buildTimeHashes := [("elem1", "base1"), ("elem2", "base2")],
    checks := [], tamperEvents := [], isVerifying := false }

/-- Claim C7's failing run: a full check over `elem1` (hash computation
throws) followed by `elem2` (stored baseline mismatch). -/
def c7Run : Bool × Integrity.VerifierState :=
  Integrity.performIntegrityCheck hashFailC verifierStateC [elem1C, elem2C] 5

/-- A qualifying timing-probe result (confidence 0.9). -/
def probeA : DevTools.DetectionResult :=
  { detected := true, method := "timing", confidence := mkRat 9 10, timestamp := 0 }

/-- A qualifying geometry-probe result (confidence 0.85). -/
def probeB : DevTools.DetectionResult :=
  { detected := true, method := "resize", confidence := mkRat 17 20, timestamp := 0 }

/-- A non-qualifying console-probe result (confidence 0.7). -/
def probeC : DevTools.DetectionResult :=
  { detected := true, method := "console", confidence := mkRat 7 10, timestamp := 0 }

/-- A logger with batch size 3 and an empty queue (claim C4's witness). -/
def loggerSmallC : Logger.LoggerState :=
  { config := { loggerConfigC with batchSize := 3 }, eventQueue := [], retryQueue := [],
    isOnline := true, sessionId := "session_1", fingerprint := "fp", userAgent := "ua",
    storage := [], sentBatches := [], flushedBatches := [], attempts := 0 }

/-- Three non-critical event inputs. -/
def evIn1 : Logger.EventInput :=
  { type := "console_access", details := [], severity := Logger.Severity.low,
    source := "ConsoleMonitor", id := "event_a", timestamp := 10 }

/-- Second of the three non-critical event inputs. -/
def evIn2 : Logger.EventInput :=
  { type := "devtools_detected", details := [], severity := Logger.Severity.medium,
    source := "DevToolsDetector", id := "event_b", timestamp := 20 }

/-- Third of the three non-critical event inputs. -/
def evIn3 : Logger.EventInput :=
  { type := "suspicious_activity", details := [], severity := Logger.Severity.high,
    source := "SecurityMonitor", id := "event_c", timestamp := 30 }

/-! ### Association-list and string lemmas -/

theorem mapFind_mapSet_self {β : Type} (m : List (String × β)) (k : String) (v : β) :
    mapFind (mapSet m k v) k = some v := by
  induction m with
  | nil => simp [mapSet, mapFind]
  | cons hd tl ih =>
    obtain ⟨k₀, v₀⟩ := hd
    by_cases h : k₀ = k <;> simp [mapSet, mapFind, h, ih]

theorem mapFind_mapSet_ne {β : Type} (m : List (String × β)) (k k' : String) (v : β)
    (h : k' ≠ k) : mapFind (mapSet m k' v) k = mapFind m k := by
  induction m with
  | nil => simp [mapSet, mapFind, h]
  | cons hd tl ih =>
    obtain ⟨k₀, v₀⟩ := hd
    by_cases h₀ : k₀ = k'
    · subst h₀
      simp [mapSet, mapFind, h]
    · simp only [mapSet, if_neg h₀, mapFind]
      by_cases h₁ : k₀ = k <;> simp [h₁, ih]

theorem mapFind_eq_none_of_not_mem {β : Type} (m : List (String × β)) (k : String)
    (h : k ∉ m.map Prod.fst) : mapFind m k = none := by
  induction m with
  | nil => simp [mapFind]
  | cons hd tl ih =>
    obtain ⟨k₀, v₀⟩ := hd
    simp only [List.map_cons, List.mem_cons, not_or] at h
    have hne : ¬ k₀ = k := fun he => h.1 he.symm
    simp only [mapFind, if_neg hne]
    exact ih h.2

theorem mapFind_mapErase_self {β : Type} (m : List (String × β)) (k : String)
    (hnd : (m.map Prod.fst).Nodup) : mapFind (mapErase m k) k = none := by
  induction m with
  | nil => simp [mapErase, mapFind]
  | cons hd tl ih =>
    obtain ⟨k₀, v₀⟩ := hd
    simp only [List.map_cons, List.nodup_cons] at hnd
    by_cases h : k₀ = k
    · subst h
      simp only [mapErase, if_pos rfl]
      exact mapFind_eq_none_of_not_mem tl k₀ hnd.1
    · simp only [mapErase, if_neg h, mapFind, if_neg h]
      exact ih hnd.2

theorem mem_keys_mapSet {β : Type} (m : List (String × β)) (k a : String) (v : β) :
    a ∈ (mapSet m k v).map Prod.fst ↔ a ∈ m.map Prod.fst ∨ a = k := by
  induction m with
  | nil => simp [mapSet]
  | cons hd tl ih =>
    obtain ⟨k₀, v₀⟩ := hd
    by_cases h : k₀ = k
    · subst h
      simp [mapSet]
      tauto
    · simp [mapSet, if_neg h, ih]
      tauto

theorem nodup_keys_mapSet {β : Type} (m : List (String × β)) (k : String) (v : β)
    (hnd : (m.map Prod.fst).Nodup) : ((mapSet m k v).map Prod.fst).Nodup := by
  induction m with
  | nil => simp [mapSet]
  | cons hd tl ih =>
    obtain ⟨k₀, v₀⟩ := hd
    simp only [List.map_cons, List.nodup_cons] at hnd
    by_cases h : k₀ = k
    · subst h
      have hset : mapSet ((k₀, v₀) :: tl) k₀ v = (k₀, v) :: tl := by simp [mapSet]
      rw [hset]
      simp only [List.map_cons, List.nodup_cons]
      exact ⟨hnd.1, hnd.2⟩
    · simp only [mapSet, if_neg h, List.map_cons, List.nodup_cons]
      refine ⟨fun hm => ?_, ih hnd.2⟩
      rcases (mem_keys_mapSet tl k k₀ v).1 hm with h₁ | h₁
      · exact hnd.1 h₁
      · exact h h₁

theorem mutateString_ne (s : String) (i : Nat) (c : Char)
    (hi : i < s.toList.length) (hc : c ≠ s.toList.get ⟨i, hi⟩) :
    mutateString s i c ≠ s := by
  intro h
  have hdata : s.toList.set i c = s.toList := congrArg String.toList h
  have hget : (s.toList.set i c)[i]? = s.toList[i]? := by rw [hdata]
  rw [List.getElem?_set_eq_of_lt c hi, List.getElem?_eq_getElem hi] at hget
  have hc' : c = s.toList.get ⟨i, hi⟩ := by
    have := Option.some.inj hget
    simpa [List.get_eq_getElem] using this
  exact hc hc'

/-! ### AssetProtectionService lemmas -/

theorem logAccess_tokenCache (svc : Asset.Service) (token : String) (success : Bool)
    (reason : Option String) (now : Nat) :
    (Asset.logAccess svc token success reason now).tokenCache = svc.tokenCache := rfl

theorem logAccess_config (svc : Asset.Service) (token : String) (success : Bool)
    (reason : Option String) (now : Nat) :
    (Asset.logAccess svc token success reason now).config = svc.config := rfl

theorem getLast?_cap {α : Type} (l : List α) (x : α) :
    (if (l ++ [x]).length > 1000 then (l ++ [x]).tail else l ++ [x]).getLast? = some x := by
  split
  · cases l with
    | nil => simp_all
    | cons hd tl =>
      simp only [List.cons_append, List.tail_cons]
      exact List.getLast?_concat tl
  · exact List.getLast?_concat l

theorem logAccess_getLast (svc : Asset.Service) (token : String) (success : Bool)
    (reason : Option String) (now : Nat) :
    ((Asset.logAccess svc token success reason now).accessLogs.getLast?.map
      (fun lg => (lg.success, lg.reason))) = some (success, reason) := by
  have h := getLast?_cap svc.accessLogs
    ({ token := String.mk (token.toList.take 8) ++ "...", timestamp := now,
       success := success, reason := reason } : Asset.AssetAccessLog)
  simp only [Asset.logAccess]
  rw [h]
  rfl

theorem validate_success (hmac : String → String → String) (svc : Asset.Service)
    (token : String) (td : Asset.TokenData) (expires now : Nat) (sig : String)
    (hen : svc.config.enabled = true)
    (hfound : mapFind svc.tokenCache token = some td)
    (h1 : now ≤ expires) (h2 : now ≤ td.expires)
    (hsig : sig = Asset.generateSignature hmac svc.config token expires td.originalPath) :
    Asset.validateSignedUrl hmac svc token sig expires now
      = (some td.originalPath, Asset.logAccess svc token true none now) := by
  subst hsig
  unfold Asset.validateSignedUrl
  rw [hen, hfound]
  have hexp : (decide (now > expires) || decide (now > td.expires)) = false := by
    simp only [Bool.or_eq_false_iff, decide_eq_false_iff_not, not_lt]
    exact ⟨h1, h2⟩
  simp [hexp]

theorem validate_mismatch (hmac : String → String → String) (svc : Asset.Service)
    (token : String) (td : Asset.TokenData) (expires now : Nat) (sig : String)
    (hen : svc.config.enabled = true)
    (hfound : mapFind svc.tokenCache token = some td)
    (h1 : now ≤ expires) (h2 : now ≤ td.expires)
    (hsig : sig ≠ Asset.generateSignature hmac svc.config token expires td.originalPath) :
    Asset.validateSignedUrl hmac svc token sig expires now
      = (none, Asset.logAccess svc token false (some "Invalid signature") now) := by
  unfold Asset.validateSignedUrl
  rw [hen, hfound]
  have hexp : (decide (now > expires) || decide (now > td.expires)) = false := by
    simp only [Bool.or_eq_false_iff, decide_eq_false_iff_not, not_lt]
    exact ⟨h1, h2⟩
  simp [hexp, hsig]

theorem generateSignedUrl_ok (hmac : String → String → String) (svc : Asset.Service)
    (path : String) (t0 : Nat) (token : String) (u : Asset.SignedAssetUrl)
    (svc1 : Asset.Service)
    (hen : svc.config.enabled = true)
    (hissue : Asset.generateSignedUrl hmac svc path t0 token = .ok (u, svc1)) :
    u.token = token ∧
    u.expires = t0 + svc.config.urlExpiration * 60 * 1000 ∧
    u.signature = Asset.generateSignature hmac svc.config token u.expires path ∧
    svc1 = { svc with tokenCache := mapSet svc.tokenCache token ⟨path, u.expires⟩ } := by
  simp only [Asset.generateSignedUrl, hen, Bool.not_true] at hissue
  rw [if_neg (by simp)] at hissue
  split at hissue
  · cases hissue
  · rw [Except.ok.injEq, Prod.mk.injEq] at hissue
    obtain ⟨hu, hsvc⟩ := hissue
    subst hu
    subst hsvc
    exact ⟨rfl, rfl, rfl, rfl⟩

/-! ### Claims about the AssetProtectionService -/

/-- Claim C1, counterexample at the expiry boundary: for the grant issued
at time 0 with a 15-minute TTL (`expiresAt = 900000`), validating at
`now = 900000` — where `now ≥ expiresAt` holds — succeeds and returns the
resource path, and the token mapping survives, because the source tests
expiry with a strict `Date.now() > expires`. -/
theorem c1_boundary_counterexample :
    Asset.generateSignedUrl hmacC assetSvcC "/img/a.png" 0 "tok" = .ok assetGrantC ∧
    900000 ≥ assetGrantC.1.expires ∧
    (Asset.validateSignedUrl hmacC assetGrantC.2 "tok" assetGrantC.1.signature
        assetGrantC.1.expires 900000).1 = some "/img/a.png" ∧
    mapFind (Asset.validateSignedUrl hmacC assetGrantC.2 "tok" assetGrantC.1.signature
        assetGrantC.1.expires 900000).2.tokenCache "tok"
      = some { originalPath := "/img/a.png", expires := 900000 } :=
  ⟨rfl, by decide, rfl, rfl⟩

/-- Claim C1 (amended): for every grant issued by `generateSignedUrl`,
validating with the issued signature and expiry at a time strictly past
`expiresAt` fails (returns no path) and evicts the token mapping, while
validating at any time up to and including `expiresAt` — in particular
immediately after issuance — succeeds and returns the original resource
path. -/
theorem c1_grant_expiry (hmac : String → String → String) (svc : Asset.Service)
    (path token : String) (t0 now : Nat) (u : Asset.SignedAssetUrl) (svc1 : Asset.Service)
    (hen : svc.config.enabled = true)
    (hnd : (svc.tokenCache.map Prod.fst).Nodup)
    (hissue : Asset.generateSignedUrl hmac svc path t0 token = .ok (u, svc1)) :
    (now > u.expires →
      (Asset.validateSignedUrl hmac svc1 u.token u.signature u.expires now).1 = none ∧
      mapFind (Asset.validateSignedUrl hmac svc1 u.token u.signature u.expires now).2.tokenCache
        u.token = none) ∧
    (now ≤ u.expires →
      (Asset.validateSignedUrl hmac svc1 u.token u.signature u.expires now).1 = some path) := by
  obtain ⟨htok, hexp, hsig, hsvc1⟩ :=
    generateSignedUrl_ok hmac svc path t0 token u svc1 hen hissue
  subst hsvc1
  rw [htok]
  have hen' : ({ svc with
      tokenCache := mapSet svc.tokenCache token ⟨path, u.expires⟩ } : Asset.Service).config.enabled
      = true := hen
  have hfound : mapFind ({ svc with
      tokenCache := mapSet svc.tokenCache token ⟨path, u.expires⟩ } : Asset.Service).tokenCache
      token = some ⟨path, u.expires⟩ :=
    mapFind_mapSet_self svc.tokenCache token ⟨path, u.expires⟩
  constructor
  · intro hnow
    unfold Asset.validateSignedUrl
    rw [hen', hfound]
    have hexp' : (decide (now > u.expires) ||
        decide (now > (⟨path, u.expires⟩ : Asset.TokenData).expires)) = true := by
      simp only [Bool.or_eq_true, decide_eq_true_eq]
      exact Or.inl hnow
    simp only [hexp', Bool.not_true, Bool.false_eq_true, if_false, if_true]
    refine ⟨by simp, ?_⟩
    rw [logAccess_tokenCache]
    exact mapFind_mapErase_self _ token (nodup_keys_mapSet svc.tokenCache token _ hnd)
  · intro hnow
    rw [validate_success hmac _ token ⟨path, u.expires⟩ u.expires now u.signature hen'
      hfound hnow hnow (by rw [hsig])]

/-- Claim C2: for a stored, unexpired grant, presenting a signature that
differs from the issued one in one character fails validation (no
resource path) and the failure is logged with the signature-mismatch
reason (`'Invalid signature'`, the code's encoding of the spec's
`SignatureMismatch`). -/
theorem c2_signature_mutation (hmac : String → String → String) (svc : Asset.Service)
    (path token : String) (t0 now i : Nat) (c : Char) (u : Asset.SignedAssetUrl)
    (svc1 : Asset.Service)
    (hen : svc.config.enabled = true)
    (hissue : Asset.generateSignedUrl hmac svc path t0 token = .ok (u, svc1))
    (hnow : now ≤ u.expires)
    (hi : i < u.signature.toList.length)
    (hc : c ≠ u.signature.toList.get ⟨i, hi⟩) :
    (Asset.validateSignedUrl hmac svc1 u.token (mutateString u.signature i c)
        u.expires now).1 = none ∧
    ((Asset.validateSignedUrl hmac svc1 u.token (mutateString u.signature i c)
        u.expires now).2.accessLogs.getLast?.map (fun lg => (lg.success, lg.reason)))
      = some (false, some "Invalid signature") := by
  obtain ⟨htok, hexp, hsig, hsvc1⟩ :=
    generateSignedUrl_ok hmac svc path t0 token u svc1 hen hissue
  subst hsvc1
  rw [htok]
  have hen' : ({ svc with
      tokenCache := mapSet svc.tokenCache token ⟨path, u.expires⟩ } : Asset.Service).config.enabled
      = true := hen
  have hfound : mapFind ({ svc with
      tokenCache := mapSet svc.tokenCache token ⟨path, u.expires⟩ } : Asset.Service).tokenCache
      token = some ⟨path, u.expires⟩ :=
    mapFind_mapSet_self svc.tokenCache token ⟨path, u.expires⟩
  rw [validate_mismatch hmac _ token ⟨path, u.expires⟩ u.expires now
    (mutateString u.signature i c) hen' hfound hnow hnow
    (by rw [← hsig]; exact mutateString_ne u.signature i c hi hc)]
  exact ⟨rfl, logAccess_getLast _ token false (some "Invalid signature") now⟩

/-- Claim C9: validating the same non-single-use grant twice within its
validity window succeeds both times with the same resource path, and a
successful validation leaves the stored grant map untouched. -/
theorem c9_validate_idempotent (hmac : String → String → String) (svc : Asset.Service)
    (token : String) (td : Asset.TokenData) (expires now₁ now₂ : Nat) (sig : String)
    (hen : svc.config.enabled = true)
    (hfound : mapFind svc.tokenCache token = some td)
    (h1 : now₁ ≤ expires) (h1t : now₁ ≤ td.expires)
    (h2 : now₂ ≤ expires) (h2t : now₂ ≤ td.expires)
    (hsig : sig = Asset.generateSignature hmac svc.config token expires td.originalPath) :
    (Asset.validateSignedUrl hmac svc token sig expires now₁).1 = some td.originalPath ∧
    (Asset.validateSignedUrl hmac (Asset.validateSignedUrl hmac svc token sig expires now₁).2
        token sig expires now₂).1 = some td.originalPath ∧
    (Asset.validateSignedUrl hmac svc token sig expires now₁).2.tokenCache = svc.tokenCache ∧
    (Asset.validateSignedUrl hmac (Asset.validateSignedUrl hmac svc token sig expires now₁).2
        token sig expires now₂).2.tokenCache = svc.tokenCache := by
  have hr1 := validate_success hmac svc token td expires now₁ sig hen hfound h1 h1t hsig
  rw [hr1]
  have hr2 := validate_success hmac (Asset.logAccess svc token true none now₁) token td
    expires now₂ sig hen hfound h2 h2t hsig
  rw [hr2]
  exact ⟨rfl, rfl, rfl, rfl⟩

/-- Claim C10: with `enabled = false`, `generateSignedUrl` returns the
original path with empty token, zero expiry and empty signature for every
input path — no extension check runs, so no input is rejected — and
`validateSignedUrl` denies (returns `null`) every token. -/
theorem c10_disabled (hmac : String → String → String) (svc : Asset.Service)
    (path token tok : String) (sig : String) (t0 exp now : Nat)
    (hdis : svc.config.enabled = false) :
    Asset.generateSignedUrl hmac svc path t0 token =
      .ok ({ url := path, token := "", expires := 0, signature := "" }, svc) ∧
    Asset.validateSignedUrl hmac svc tok sig exp now = (none, svc) := by
  constructor
  · unfold Asset.generateSignedUrl
    rw [hdis]
    rfl
  · unfold Asset.validateSignedUrl
    rw [hdis]
    rfl

/-- Witness for C1 at the concrete grant `assetGrantC`, validated one
millisecond past expiry. -/
theorem c1_grant_expiry_witness :
    assetSvcC.config.enabled = true ∧
    (assetSvcC.tokenCache.map Prod.fst).Nodup ∧
    ((900001 > assetGrantC.1.expires →
        (Asset.validateSignedUrl hmacC assetGrantC.2 assetGrantC.1.token assetGrantC.1.signature
          assetGrantC.1.expires 900001).1 = none ∧
        mapFind (Asset.validateSignedUrl hmacC assetGrantC.2 assetGrantC.1.token
          assetGrantC.1.signature assetGrantC.1.expires 900001).2.tokenCache
          assetGrantC.1.token = none) ∧
     (900001 ≤ assetGrantC.1.expires →
        (Asset.validateSignedUrl hmacC assetGrantC.2 assetGrantC.1.token assetGrantC.1.signature
          assetGrantC.1.expires 900001).1 = some "/img/a.png")) :=
  ⟨rfl, by decide,
   c1_grant_expiry hmacC assetSvcC "/img/a.png" "tok" 0 900001 assetGrantC.1 assetGrantC.2
     rfl (by decide) rfl⟩

/-- Witness for C2: flipping the first character of the concrete grant's
signature to `'X'` makes validation fail with the mismatch reason. -/
theorem c2_signature_mutation_witness :
    assetSvcC.config.enabled = true ∧
    100 ≤ assetGrantC.1.expires ∧
    0 < assetGrantC.1.signature.toList.length ∧
    (Asset.validateSignedUrl hmacC assetGrantC.2 assetGrantC.1.token
        (mutateString assetGrantC.1.signature 0 'X') assetGrantC.1.expires 100).1 = none ∧
    ((Asset.validateSignedUrl hmacC assetGrantC.2 assetGrantC.1.token
        (mutateString assetGrantC.1.signature 0 'X') assetGrantC.1.expires 100).2.accessLogs.getLast?.map
      (fun lg => (lg.success, lg.reason))) = some (false, some "Invalid signature") := by
  have h := c2_signature_mutation hmacC assetSvcC "/img/a.png" "tok" 0 100 0 'X'
    assetGrantC.1 assetGrantC.2 rfl rfl (by decide) (by decide) (by decide)
  exact ⟨rfl, by decide, by decide, h.1, h.2⟩

/-- Witness for C9 at the concrete grant, validated at times 10 and 20. -/
theorem c9_validate_idempotent_witness :
    assetGrantC.2.config.enabled = true ∧
    mapFind assetGrantC.2.tokenCache "tok" = some ⟨"/img/a.png", 900000⟩ ∧
    (Asset.validateSignedUrl hmacC assetGrantC.2 "tok" assetGrantC.1.signature 900000 10).1
      = some "/img/a.png" ∧
    (Asset.validateSignedUrl hmacC
        (Asset.validateSignedUrl hmacC assetGrantC.2 "tok" assetGrantC.1.signature 900000 10).2
        "tok" assetGrantC.1.signature 900000 20).1 = some "/img/a.png" ∧
    (Asset.validateSignedUrl hmacC assetGrantC.2 "tok" assetGrantC.1.signature 900000 10).2.tokenCache
      = assetGrantC.2.tokenCache ∧
    (Asset.validateSignedUrl hmacC
        (Asset.validateSignedUrl hmacC assetGrantC.2 "tok" assetGrantC.1.signature 900000 10).2
        "tok" assetGrantC.1.signature 900000 20).2.tokenCache = assetGrantC.2.tokenCache := by
  have h := c9_validate_idempotent hmacC assetGrantC.2 "tok" ⟨"/img/a.png", 900000⟩
    900000 10 20 assetGrantC.1.signature rfl rfl (by decide) (by decide) (by decide) (by decide) rfl
  exact ⟨rfl, rfl, h.1, h.2.1, h.2.2.1, h.2.2.2⟩

/-- Witness for C10: the disabled service passes a disallowed `.exe` path
through unchanged and denies an arbitrary token. -/
theorem c10_disabled_witness :
    assetSvcDisabledC.config.enabled = false ∧
    Asset.generateSignedUrl hmacC assetSvcDisabledC "/bin/x.exe" 0 "tok" =
      .ok ({ url := "/bin/x.exe", token := "", expires := 0, signature := "" },
        assetSvcDisabledC) ∧
    Asset.validateSignedUrl hmacC assetSvcDisabledC "anytok" "anysig" 900000 5
      = (none, assetSvcDisabledC) := by
  have h := c10_disabled hmacC assetSvcDisabledC "/bin/x.exe" "tok" "anytok" "anysig" 0 900000 5 rfl
  exact ⟨rfl, h.1, h.2⟩

/-! ### Claim about the SecurityMonitor threat level -/

/-- Claim C8: the computed threat level is `critical` iff a critical
alert is present; otherwise `high` when more than 2 high-severity alerts
exist; otherwise `medium` when more than 10 alerts exist; otherwise
`low` — i.e. the source computation coincides with the claim's wording
(`claimThreatLevel`) on every alert list. -/
theorem c8_threat_level (alerts : List Monitor.SecurityAlert) :
    Monitor.computeThreatLevel alerts = Monitor.claimThreatLevel alerts := by
  simp only [Monitor.computeThreatLevel, Monitor.claimThreatLevel]
  have hcrit : (0 < (alerts.filter
        (fun a => decide (a.severity = Logger.Severity.critical))).length)
      ↔ ∃ a ∈ alerts, a.severity = Logger.Severity.critical := by
    rw [List.length_pos_iff_exists_mem]
    constructor
    · rintro ⟨a, ha⟩
      rw [List.mem_filter] at ha
      exact ⟨a, ha.1, of_decide_eq_true ha.2⟩
    · rintro ⟨a, ha, hs⟩
      exact ⟨a, List.mem_filter.2 ⟨ha, decide_eq_true hs⟩⟩
  exact if_congr hcrit rfl rfl

/-! ### RateLimiter lemmas and claim C5 -/

theorem checkRateLimit_fresh (key : String) (now : Nat) :
    RateLimit.checkRateLimit [] key now = (true, [(key, ⟨1, now, now, false⟩)]) := by
  simp [RateLimit.checkRateLimit, mapFind, mapSet]

theorem checkRateLimit_pass (key : String) (c t0 last now : Nat) (b : Bool)
    (hwin : now - t0 ≤ RateLimit.windowSize)
    (hcap : c + 1 ≤ RateLimit.maxRequests) :
    RateLimit.checkRateLimit [(key, ⟨c, t0, last, b⟩)] key now
      = (true, [(key, ⟨c + 1, t0, now, b⟩)]) := by
  unfold RateLimit.checkRateLimit
  have hfind : mapFind [(key, (⟨c, t0, last, b⟩ : RateLimit.RateLimitEntry))] key
      = some ⟨c, t0, last, b⟩ := by simp [mapFind]
  simp only [hfind]
  rw [if_neg (not_lt.2 hwin)]
  rw [if_neg (show ¬ (c + 1 > RateLimit.maxRequests) by omega)]
  simp [mapSet]

theorem runCalls_within (key : String) (t0 last c : Nat) (ts : List Nat)
    (hwin : ∀ t ∈ ts, t - t0 ≤ RateLimit.windowSize)
    (hcap : c + ts.length ≤ RateLimit.maxRequests) :
    RateLimit.runCalls [(key, ⟨c, t0, last, false⟩)] key ts =
      (List.replicate ts.length true,
       [(key, ⟨c + ts.length, t0, ts.getLastD last, false⟩)]) := by
  induction ts generalizing c last with
  | nil => simp [RateLimit.runCalls]
  | cons t ts ih =>
    have hstep := checkRateLimit_pass key c t0 last t false (hwin t (by simp))
      (by simp only [List.length_cons] at hcap; omega)
    have hih := ih t (c + 1) (fun t' ht' => hwin t' (by simp [ht']))
      (by simp only [List.length_cons] at hcap ⊢; omega)
    simp only [RateLimit.runCalls, hstep, hih, List.replicate_succ, List.length_cons,
      List.getLastD_cons]
    rw [show c + 1 + ts.length = c + (ts.length + 1) from by omega]

/-- Claim C5: with ceiling 100 per one-minute window, the first 100 calls
for a key within the window all pass (the first one creating the entry),
the 101st call in the same window fails and marks the entry blocked with
count 101, and the first call made strictly after the window size has
elapsed since the window start passes again with the count reset to 1
and a fresh window. -/
theorem c5_rate_limit (key : String) (t0 t101 tReset : Nat) (ts : List Nat)
    (hlen : ts.length = 99)
    (hwin : ∀ t ∈ ts, t - t0 ≤ RateLimit.windowSize)
    (hwin101 : t101 - t0 ≤ RateLimit.windowSize)
    (hreset : tReset - t0 > RateLimit.windowSize) :
    (RateLimit.runCalls [] key (t0 :: ts)).1 = List.replicate 100 true ∧
    (RateLimit.checkRateLimit (RateLimit.runCalls [] key (t0 :: ts)).2 key t101).1 = false ∧
    mapFind (RateLimit.checkRateLimit (RateLimit.runCalls [] key (t0 :: ts)).2 key t101).2 key
      = some ⟨101, t0, t101, true⟩ ∧
    (RateLimit.checkRateLimit
      (RateLimit.checkRateLimit (RateLimit.runCalls [] key (t0 :: ts)).2 key t101).2
      key tReset).1 = true ∧
    mapFind (RateLimit.checkRateLimit
      (RateLimit.checkRateLimit (RateLimit.runCalls [] key (t0 :: ts)).2 key t101).2
      key tReset).2 key = some ⟨1, tReset, tReset, false⟩ := by
  have hrun : RateLimit.runCalls [] key (t0 :: ts)
      = (true :: List.replicate 99 true, [(key, ⟨100, t0, ts.getLastD t0, false⟩)]) := by
    have h1 := checkRateLimit_fresh key t0
    have h2 := runCalls_within key t0 t0 1 ts hwin (by rw [hlen]; decide)
    simp only [RateLimit.runCalls, h1, h2, hlen]
  have h101 : RateLimit.checkRateLimit [(key, ⟨100, t0, ts.getLastD t0, false⟩)] key t101
      = (false, [(key, ⟨101, t0, t101, true⟩)]) := by
    unfold RateLimit.checkRateLimit
    have hfind : mapFind [(key, (⟨100, t0, ts.getLastD t0, false⟩ : RateLimit.RateLimitEntry))] key
        = some ⟨100, t0, ts.getLastD t0, false⟩ := by simp [mapFind]
    simp only [hfind]
    rw [if_neg (not_lt.2 hwin101)]
    rw [if_pos (show 100 + 1 > RateLimit.maxRequests by norm_num [RateLimit.maxRequests])]
    simp [mapSet]
  have hres : RateLimit.checkRateLimit [(key, ⟨101, t0, t101, true⟩)] key tReset
      = (true, [(key, ⟨1, tReset, tReset, false⟩)]) := by
    unfold RateLimit.checkRateLimit
    have hfind : mapFind [(key, (⟨101, t0, t101, true⟩ : RateLimit.RateLimitEntry))] key
        = some ⟨101, t0, t101, true⟩ := by simp [mapFind]
    simp only [hfind]
    rw [if_pos hreset]
    simp [mapSet]
  simp only [hrun, h101, hres]
  exact ⟨rfl, trivial, by simp [mapFind], trivial, by simp [mapFind]⟩

/-- Witness for C5: 101 calls at time 0 followed by one at time 60001. -/
theorem c5_rate_limit_witness :
    (List.replicate 99 0).length = 99 ∧
    (RateLimit.runCalls [] "k" (0 :: List.replicate 99 0)).1 = List.replicate 100 true ∧
    (RateLimit.checkRateLimit (RateLimit.runCalls [] "k" (0 :: List.replicate 99 0)).2 "k" 0).1
      = false ∧
    mapFind (RateLimit.checkRateLimit
      (RateLimit.runCalls [] "k" (0 :: List.replicate 99 0)).2 "k" 0).2 "k"
      = some ⟨101, 0, 0, true⟩ ∧
    (RateLimit.checkRateLimit (RateLimit.checkRateLimit
      (RateLimit.runCalls [] "k" (0 :: List.replicate 99 0)).2 "k" 0).2 "k" 60001).1 = true ∧
    mapFind (RateLimit.checkRateLimit (RateLimit.checkRateLimit
      (RateLimit.runCalls [] "k" (0 :: List.replicate 99 0)).2 "k" 0).2 "k" 60001).2 "k"
      = some ⟨1, 60001, 60001, false⟩ := by
  have h := c5_rate_limit "k" 0 0 60001 (List.replicate 99 0) (by decide)
    (by intro t ht; simp at ht; simp [ht]) (by decide) (by decide)
  exact ⟨by decide, h.1, h.2.1, h.2.2.1, h.2.2.2.1, h.2.2.2.2⟩

/-! ### DevTools fusion lemmas and claim C6 -/

theorem self_le_pickBest (rest : List DevTools.DetectionResult)
    (best : DevTools.DetectionResult) :
    best.confidence ≤ (DevTools.pickBest best rest).confidence := by
  induction rest generalizing best with
  | nil => exact le_refl _
  | cons x rest ih =>
    have hfold : DevTools.pickBest best (x :: rest)
        = DevTools.pickBest (if x.confidence > best.confidence then x else best) rest := rfl
    rw [hfold]
    by_cases hcmp : x.confidence > best.confidence
    · rw [if_pos hcmp]
      exact le_trans (le_of_lt hcmp) (ih x)
    · rw [if_neg hcmp]
      exact ih best

theorem mem_le_pickBest (rest : List DevTools.DetectionResult)
    (best r : DevTools.DetectionResult) (hr : r ∈ rest) :
    r.confidence ≤ (DevTools.pickBest best rest).confidence := by
  induction rest generalizing best with
  | nil => cases hr
  | cons x rest ih =>
    have hfold : DevTools.pickBest best (x :: rest)
        = DevTools.pickBest (if x.confidence > best.confidence then x else best) rest := rfl
    rw [hfold]
    rcases List.mem_cons.1 hr with h | h
    · subst h
      refine le_trans ?_ (self_le_pickBest rest _)
      split
      · exact le_refl _
      · exact le_of_not_lt (by assumption)
    · exact ih _ h

theorem pickBest_mem (rest : List DevTools.DetectionResult)
    (best : DevTools.DetectionResult) :
    DevTools.pickBest best rest ∈ best :: rest := by
  induction rest generalizing best with
  | nil => simp [DevTools.pickBest]
  | cons x rest ih =>
    have hfold : DevTools.pickBest best (x :: rest)
        = DevTools.pickBest (if x.confidence > best.confidence then x else best) rest := rfl
    rw [hfold]
    have h := ih (if x.confidence > best.confidence then x else best)
    rcases List.mem_cons.1 h with h₁ | h₁
    · rw [h₁]
      split
      · simp
      · simp
    · simp [List.mem_cons.2 (Or.inr (List.mem_cons.2 (Or.inr h₁)))]

/-- Claim C6: when two or more probe results of one tick qualify
(`detected` with confidence at or above the threshold), the detection
handler is invoked exactly once for the tick, with a qualifying result of
maximal confidence among the qualifiers. -/
theorem c6_single_invocation (threshold : ℚ) (history results : List DevTools.DetectionResult)
    (h2 : 2 ≤ (results.filter (DevTools.qualifies threshold)).length) :
    ∃ b : DevTools.DetectionResult,
      (DevTools.runDetection threshold history results).1 = [(b.method, b.confidence)] ∧
      b ∈ results.filter (DevTools.qualifies threshold) ∧
      (∀ r ∈ results.filter (DevTools.qualifies threshold),
        r.confidence ≤ b.confidence) := by
  cases hq : results.filter (DevTools.qualifies threshold) with
  | nil => rw [hq] at h2; simp at h2
  | cons h t =>
    refine ⟨DevTools.pickBest h t, ?_, ?_, ?_⟩
    · simp only [DevTools.runDetection, hq]
    · exact pickBest_mem t h
    · intro r hr
      rcases List.mem_cons.1 hr with h₁ | h₁
      · rw [h₁]
        exact self_le_pickBest t h
      · exact mem_le_pickBest t h r h₁

/-- Witness for C6: two qualifying probes (0.9 and 0.85) and one below
the 0.8 threshold yield one invocation carrying the 0.9 result. -/
theorem c6_single_invocation_witness :
    2 ≤ ([probeA, probeB, probeC].filter (DevTools.qualifies (mkRat 4 5))).length ∧
    (∃ b : DevTools.DetectionResult,
      (DevTools.runDetection (mkRat 4 5) [] [probeA, probeB, probeC]).1
        = [(b.method, b.confidence)] ∧
      b ∈ [probeA, probeB, probeC].filter (DevTools.qualifies (mkRat 4 5)) ∧
      (∀ r ∈ [probeA, probeB, probeC].filter (DevTools.qualifies (mkRat 4 5)),
        r.confidence ≤ b.confidence)) :=
  ⟨by decide, c6_single_invocation (mkRat 4 5) [] [probeA, probeB, probeC] (by decide)⟩

/-! ### EventPipeline lemmas and claims C3, C4 -/

theorem sendBatch_preserves (net : Nat → Bool) (st : Logger.LoggerState)
    (batch : Logger.EventBatch) :
    (Logger.sendBatch net st batch).2.eventQueue = st.eventQueue ∧
    (Logger.sendBatch net st batch).2.flushedBatches = st.flushedBatches ∧
    (Logger.sendBatch net st batch).2.retryQueue = st.retryQueue := by
  unfold Logger.sendBatch Logger.storeLocally
  rcases hep : st.config.endpoint with _ | ep <;> simp [hep]

theorem flush_flushes (net : Nat → Bool) (st : Logger.LoggerState) (bid : String) (ts : Nat)
    (hon : st.isOnline = true) (hne : st.eventQueue ≠ []) :
    (Logger.flush net st bid ts).eventQueue = [] ∧
    (Logger.flush net st bid ts).flushedBatches =
      st.flushedBatches ++ [⟨st.eventQueue, bid, ts, st.sessionId⟩] := by
  unfold Logger.flush
  have hcond : (decide (st.eventQueue.length = 0) || !st.isOnline) = false := by
    simp [hon, List.length_eq_zero, hne]
  rw [hcond]
  simp only [Bool.false_eq_true, if_false]
  split
  · exact ⟨(sendBatch_preserves net _ _).1, (sendBatch_preserves net _ _).2.1⟩
  · exact ⟨(sendBatch_preserves net _ _).1, (sendBatch_preserves net _ _).2.1⟩

theorem logEvent_step_no_flush (net : Nat → Bool) (st : Logger.LoggerState)
    (e : Logger.EventInput) (bid : String) (ts : Nat)
    (hen : st.config.enabled = true)
    (hnc : e.severity ≠ Logger.Severity.critical)
    (hlt : st.eventQueue.length + 1 < st.config.batchSize) :
    (Logger.logEvent net st e bid ts).1 =
      { st with eventQueue := st.eventQueue ++ [Logger.mkEvent st e] } := by
  unfold Logger.logEvent
  rw [hen]
  simp only [Bool.not_true, Bool.false_eq_true, if_false, if_neg hnc]
  rw [if_neg (show ¬ (({ st with eventQueue := st.eventQueue ++ [Logger.mkEvent st e]
    } : Logger.LoggerState).eventQueue.length ≥ st.config.batchSize) by
      simp only [List.length_append, List.length_cons, List.length_nil]
      omega)]

theorem mkEvent_queue_update (st : Logger.LoggerState) (q : List Logger.SecurityEvent)
    (e : Logger.EventInput) :
    Logger.mkEvent { st with eventQueue := q } e = Logger.mkEvent st e := rfl

theorem logEvents_fill (net : Nat → Bool) (st : Logger.LoggerState)
    (evs : List Logger.EventInput)
    (hen : st.config.enabled = true) (hon : st.isOnline = true)
    (hnc : ∀ e ∈ evs, e.severity ≠ Logger.Severity.critical)
    (hfill : st.eventQueue.length + evs.length = st.config.batchSize)
    (hpos : evs ≠ []) :
    (Logger.logEvents net st evs).eventQueue = [] ∧
    (Logger.logEvents net st evs).flushedBatches.map Logger.EventBatch.events =
      st.flushedBatches.map Logger.EventBatch.events
        ++ [st.eventQueue ++ evs.map (Logger.mkEvent st)] := by
  induction evs generalizing st with
  | nil => cases hpos rfl
  | cons e evs ih =>
    cases evs with
    | nil =>
      have hstep : Logger.logEvents net st [e] = (Logger.logEvent net st e e.id e.timestamp).1 :=
        rfl
      rw [hstep]
      unfold Logger.logEvent
      rw [hen]
      simp only [Bool.not_true, Bool.false_eq_true, if_false, if_neg (hnc e (by simp))]
      rw [if_pos (show (({ st with eventQueue := st.eventQueue ++ [Logger.mkEvent st e]
        } : Logger.LoggerState).eventQueue.length ≥ st.config.batchSize) by
          simp only [List.length_append, List.length_cons, List.length_nil]
          simp only [List.length_cons, List.length_nil] at hfill
          omega)]
      have hff := flush_flushes net
        { st with eventQueue := st.eventQueue ++ [Logger.mkEvent st e] } e.id e.timestamp hon
        (by simp)
      exact ⟨hff.1, by rw [hff.2]; simp⟩
    | cons e2 rest =>
      have hstep := logEvent_step_no_flush net st e e.id e.timestamp hen (hnc e (by simp))
        (by simp only [List.length_cons] at hfill; omega)
      have hfold : Logger.logEvents net st (e :: e2 :: rest)
          = Logger.logEvents net (Logger.logEvent net st e e.id e.timestamp).1 (e2 :: rest) :=
        rfl
      rw [hfold, hstep]
      have hihs := ih { st with eventQueue := st.eventQueue ++ [Logger.mkEvent st e] }
        hen hon (fun x hx => hnc x (by simp [hx]))
        (by simp only [List.length_append, List.length_cons, List.length_nil] at hfill ⊢
            omega)
        (by simp)
      refine ⟨hihs.1, ?_⟩
      rw [hihs.2]
      simp [mkEvent_queue_update, List.append_assoc]

/-- Claim C4: enqueuing exactly `batchSize` non-critical events through
`logEvent` on an enabled, online logger with an empty queue triggers
exactly one automatic flush, whose single batch carries exactly those
events in enqueue order, and leaves the event queue empty. -/
theorem c4_batch_auto_flush (net : Nat → Bool) (st : Logger.LoggerState)
    (evs : List Logger.EventInput)
    (hen : st.config.enabled = true) (hon : st.isOnline = true)
    (hq : st.eventQueue = []) (hfb : st.flushedBatches = [])
    (hlen : evs.length = st.config.batchSize) (hpos : evs ≠ [])
    (hnc : ∀ e ∈ evs, e.severity ≠ Logger.Severity.critical) :
    (Logger.logEvents net st evs).flushedBatches.map Logger.EventBatch.events
      = [evs.map (Logger.mkEvent st)] ∧
    (Logger.logEvents net st evs).eventQueue = [] := by
  have h := logEvents_fill net st evs hen hon hnc (by rw [hq]; simpa using hlen) hpos
  refine ⟨?_, h.1⟩
  rw [h.2, hfb, hq]
  simp

/-- Witness for C4: three non-critical events fill the batch-size-3
logger and flush once, in order. -/
theorem c4_batch_auto_flush_witness :
    loggerSmallC.config.enabled = true ∧
    loggerSmallC.isOnline = true ∧
    loggerSmallC.eventQueue = [] ∧
    [evIn1, evIn2, evIn3].length = loggerSmallC.config.batchSize ∧
    (Logger.logEvents netFail loggerSmallC [evIn1, evIn2, evIn3]).flushedBatches.map
        Logger.EventBatch.events
      = [[evIn1, evIn2, evIn3].map (Logger.mkEvent loggerSmallC)] ∧
    (Logger.logEvents netFail loggerSmallC [evIn1, evIn2, evIn3]).eventQueue = [] := by
  have h := c4_batch_auto_flush netFail loggerSmallC [evIn1, evIn2, evIn3] rfl rfl rfl rfl
    (by decide) (by decide) (by decide)
  exact ⟨rfl, rfl, rfl, by decide, h.1, h.2⟩

/-- Claim C3, failing run: with `maxRetries = 3` configured and an
endpoint set, a batch whose transmission fails on the flush and on both
scheduled retries is dropped outright — after the retry queue drains,
local fallback storage under `localStorageKey` is empty, nothing was
transmitted, and the batch is gone (neither requeued nor persisted). -/
theorem c3_retry_exhaustion_drops_batch :
    loggerStateC.config.maxRetries = 3 ∧
    c3Run.attempts = 3 ∧
    c3Run.storage = [] ∧
    c3Run.retryQueue = [] ∧
    c3Run.sentBatches = [] ∧
    c3Run.eventQueue = [] :=
  ⟨rfl, rfl, rfl, rfl, rfl, rfl⟩

/-! ### IntegrityVerifier lemmas and claim C7 -/

theorem handleIntegrityFailure_checks (st : Integrity.VerifierState)
    (a b c : String) (now : Nat) :
    (Integrity.handleIntegrityFailure st a b c now).checks = st.checks := rfl

theorem verifyElement_ok_stable (hashFn : String → String → Option String)
    (st : Integrity.VerifierState) (element : Integrity.CodeElement) (now : Nat) (k : String)
    (hsome : (hashFn element.content element.id).isSome = true)
    (hk : k ≠ element.id) :
    ∃ r, Integrity.verifyElement hashFn st element now = .ok r ∧
      mapFind r.2.checks k = mapFind st.checks k := by
  unfold Integrity.verifyElement
  cases hh : hashFn element.content element.id with
  | none => rw [hh] at hsome; simp at hsome
  | some currentHash =>
    simp only [hh]
    cases hb : mapFind st.buildTimeHashes element.id with
    | none =>
      simp only [hb]
      exact ⟨_, rfl, rfl⟩
    | some expectedHash =>
      simp only [hb]
      by_cases hv : currentHash = expectedHash
      · rw [if_pos hv]
        refine ⟨_, rfl, ?_⟩
        exact mapFind_mapSet_ne st.checks k element.id _ (fun h => hk h.symm)
      · rw [if_neg hv]
        refine ⟨_, rfl, ?_⟩
        rw [handleIntegrityFailure_checks]
        exact mapFind_mapSet_ne st.checks k element.id _ (fun h => hk h.symm)

theorem checkLoop_error_stable (hashFn : String → String → Option String)
    (pre : List Integrity.CodeElement) (e : Integrity.CodeElement)
    (post : List Integrity.CodeElement) (st : Integrity.VerifierState)
    (allValid : Bool) (now : Nat) (k : String)
    (hpre : ∀ el ∈ pre, (hashFn el.content el.id).isSome = true)
    (hfail : hashFn e.content e.id = none)
    (hk : k ∉ pre.map Integrity.CodeElement.id) :
    ∃ stE, Integrity.checkLoop hashFn (pre ++ e :: post) st allValid now = .error stE ∧
      mapFind stE.checks k = mapFind st.checks k := by
  induction pre generalizing st allValid with
  | nil =>
    refine ⟨st, ?_, rfl⟩
    simp only [List.nil_append, Integrity.checkLoop]
    unfold Integrity.verifyElement
    simp only [hfail]
  | cons p pre ih =>
    simp only [List.map_cons, List.mem_cons, not_or] at hk
    obtain ⟨r, hr, hstable⟩ := verifyElement_ok_stable hashFn st p now k
      (hpre p (by simp)) hk.1
    simp only [List.cons_append, Integrity.checkLoop, hr]
    obtain ⟨stE, hloop, hst⟩ := ih r.2 (allValid && r.1)
      (fun el hel => hpre el (by simp [hel])) hk.2
    exact ⟨stE, hloop, hst.trans hstable⟩

/-- Claim C7, counterexample: `elem1`'s hash computation throws while
`elem2` has a pre-seeded mismatching baseline.  The full check returns
`false`, but no check record exists afterwards — the failing element was
not degraded to a `Mismatched` result, the remaining element was never
checked, and the tamper handler was never invoked — refuting the claim
that a per-element computation failure is recorded for that element alone
while the rest of the pass continues. -/
theorem c7_isolation_counterexample :
    hashFailC elem1C.content elem1C.id = none ∧
    (hashFailC elem2C.content elem2C.id).isSome = true ∧
    mapFind verifierStateC.buildTimeHashes elem2C.id = some "base2" ∧
    hashFailC elem2C.content elem2C.id ≠ some "base2" ∧
    c7Run.1 = false ∧
    c7Run.2.checks = [] ∧
    c7Run.2.tamperEvents = [] :=
  ⟨rfl, rfl, rfl, by decide, rfl, rfl, rfl⟩

/-- Claim C7 (amended): `performIntegrityCheck` never throws to its
caller — a hash-computation failure for one element is caught by the
top-level `try`/`catch`, making the whole pass return `false`; however,
the failing element is not recorded (no `Mismatched` check record is
written for it) and the elements after it are not checked in that pass
(their check records are also unchanged). -/
theorem c7_hash_failure_aborts_pass (hashFn : String → String → Option String)
    (st : Integrity.VerifierState) (pre post : List Integrity.CodeElement)
    (e : Integrity.CodeElement) (now : Nat)
    (hguard : st.isVerifying = false)
    (hpre : ∀ el ∈ pre, (hashFn el.content el.id).isSome = true)
    (hfail : hashFn e.content e.id = none)
    (he : e.id ∉ pre.map Integrity.CodeElement.id) :
    (Integrity.performIntegrityCheck hashFn st (pre ++ e :: post) now).1 = false ∧
    mapFind (Integrity.performIntegrityCheck hashFn st (pre ++ e :: post) now).2.checks e.id
      = mapFind st.checks e.id ∧
    (∀ el ∈ post, el.id ∉ pre.map Integrity.CodeElement.id →
      mapFind (Integrity.performIntegrityCheck hashFn st (pre ++ e :: post) now).2.checks el.id
        = mapFind st.checks el.id) := by
  unfold Integrity.performIntegrityCheck
  rw [hguard]
  simp only [Bool.false_eq_true, if_false]
  obtain ⟨stE, hloop, hstable⟩ := checkLoop_error_stable hashFn pre e post
    { st with isVerifying := true } true now e.id hpre hfail he
  refine ⟨by simp only [hloop], by simp only [hloop]; exact hstable, ?_⟩
  intro el hel hnotpre
  obtain ⟨stE2, hloop2, hstable2⟩ := checkLoop_error_stable hashFn pre e post
    { st with isVerifying := true } true now el.id hpre hfail hnotpre
  rw [hloop] at hloop2
  injection hloop2 with hsame
  subst hsame
  simp only [hloop]
  exact hstable2

/-- Witness for the amended C7: `elem2` is checked first, then `elem1`'s
hash computation fails; the pass returns `false`, `elem1` gets no check
record and `elem3` (after the failure) is untouched. -/
theorem c7_hash_failure_aborts_pass_witness :
    verifierStateC.isVerifying = false ∧
    hashFailC elem1C.content elem1C.id = none ∧
    (Integrity.performIntegrityCheck hashFailC verifierStateC
      ([elem2C] ++ elem1C :: [elem3C]) 5).1 = false ∧
    mapFind (Integrity.performIntegrityCheck hashFailC verifierStateC
      ([elem2C] ++ elem1C :: [elem3C]) 5).2.checks elem1C.id
      = mapFind verifierStateC.checks elem1C.id ∧
    (∀ el ∈ [elem3C], el.id ∉ [elem2C].map Integrity.CodeElement.id →
      mapFind (Integrity.performIntegrityCheck hashFailC verifierStateC
        ([elem2C] ++ elem1C :: [elem3C]) 5).2.checks el.id
        = mapFind verifierStateC.checks el.id) := by
  have h := c7_hash_failure_aborts_pass hashFailC verifierStateC [elem2C] [elem3C] elem1C 5
    rfl (by decide) rfl (by decide)
  exact ⟨rfl, rfl, h.1, h.2.1, h.2.2⟩

end Sandro
